import Mathlib

/-!
Shallow embedding of the cor-iesu-ai adoration application (Django/Python)
for verification of its natural-language specification.

Sources embedded:
  - src/src/adoration/models.py   (Config, Period, Collection, PeriodCollection,
    CollectionConfig, PeriodAssignment, Maintainer, CollectionMaintainer,
    MaintainerPeriod)
  - src/src/adoration/forms.py    (PeriodAssignmentForm validation)
  - src/src/adoration/maintainer_views.py (queryset scoping, bulk generation,
    promotion)
  - src/src/adoration/admin.py    (PeriodAdmin.generate_standard_hour_periods)
  - src/src/adoration/templatetags/language_tags.py (language_switcher)

Database tables are embedded as lists of rows; Django ORM queryset filters
become list filters; fallible Python code returns Except/Option.
-/

namespace Adoration

/-! ## Password hashing model (django.contrib.auth.hashers.PBKDF2PasswordHasher)

The hasher is an external dependency of models.py.  Its `encode` output
"pbkdf2_sha256$iterations$salt$digest" is represented in parsed form as the
`Encoded` structure; the underlying PBKDF2 key-derivation function itself is
an abstract parameter (`pbkdf2 password salt iterations`).  `verify` decodes
the stored encoding and re-encodes the candidate password with the stored
salt and iteration count, comparing the full encodings, exactly as Django's
`PBKDF2PasswordHasher.verify` does. -/

structure Encoded where
  algorithm : String
  iterations : Nat
  salt : String
  digest : String
deriving DecidableEq, Repr

structure PasswordHasher where
  pbkdf2 : String → String → Nat → String

def PasswordHasher.encode (h : PasswordHasher) (password salt : String)
    (iterations : Nat) : Encoded :=
  { algorithm := "pbkdf2_sha256"
    iterations := iterations
    salt := salt
    digest := h.pbkdf2 password salt iterations }

def PasswordHasher.verify (h : PasswordHasher) (password : String)
    (encoded : Encoded) : Bool :=
  decide (h.encode password encoded.salt encoded.iterations = encoded)

/-- Collision-freedom of the key-derivation function at a fixed salt and
iteration count: the contract under which the spec's round-trip property is
stated (a PBKDF2 collision would break it for any implementation). -/
def PasswordHasher.Injective (h : PasswordHasher) : Prop :=
  ∀ salt iterations p q,
    h.pbkdf2 p salt iterations = h.pbkdf2 q salt iterations → p = q

/-! ## models.py: PeriodAssignment -/

/-- Embeds `PeriodAssignment` (models.py lines 217-311).  `id` is the
database primary key (`none` while unsaved). -/
structure PeriodAssignment where
  id : Option Nat
  period_collection : Nat
  email_hash : Encoded
  salt : String
  deletion_token : String
  iterations : Nat
deriving DecidableEq, Repr

/-- Embeds `PeriodAssignment.create_with_email` (models.py lines 261-295).
The randomly generated salt and deletion token (`secrets.token_hex`,
`generate_deletion_token`) are nondeterministic inputs and are passed as
parameters; the hash is computed over `email + deletion_token`. -/
def PeriodAssignment.create_with_email (h : PasswordHasher) (email : String)
    (period_collection : Nat) (salt deletion_token : String) :
    PeriodAssignment :=
  let iterations : Nat := 320000
  let combined_data : String := email ++ deletion_token
  { id := none
    period_collection := period_collection
    email_hash := h.encode combined_data salt iterations
    salt := salt
    deletion_token := deletion_token
    iterations := iterations }

/-- Embeds `PeriodAssignment.verify_email` (models.py lines 297-308). -/
def PeriodAssignment.verify_email (h : PasswordHasher)
    (a : PeriodAssignment) (email : String) : Bool :=
  let combined_data : String := email ++ a.deletion_token
  h.verify combined_data a.email_hash

/-! ## Helper lemmas about the hashing model -/

theorem string_append_right_cancel {a b t : String} (h : a ++ t = b ++ t) :
    a = b := by
  have hd : (a ++ t).data = (b ++ t).data := congrArg String.data h
  rw [String.data_append, String.data_append] at hd
  have hab : a.data = b.data := List.append_cancel_right hd
  cases a; cases b; exact congrArg String.mk hab

theorem verify_email_create_self (h : PasswordHasher) (email : String)
    (pc : Nat) (salt token : String) :
    (PeriodAssignment.create_with_email h email pc salt token).verify_email
      h email = true := by
  simp [PeriodAssignment.create_with_email, PeriodAssignment.verify_email,
    PasswordHasher.verify, PasswordHasher.encode]

theorem verify_email_create_other (h : PasswordHasher)
    (hinj : h.Injective) (email other : String) (pc : Nat)
    (salt token : String) (hne : other ≠ email) :
    (PeriodAssignment.create_with_email h email pc salt token).verify_email
      h other = false := by
  simp only [PeriodAssignment.create_with_email, PeriodAssignment.verify_email,
    PasswordHasher.verify, PasswordHasher.encode, decide_eq_false_iff_not]
  intro hcontr
  have hdig := congrArg Encoded.digest hcontr
  simp only at hdig
  have hcomb := hinj salt 320000 _ _ hdig
  exact hne (string_append_right_cancel hcomb)

/-- A trivially collision-free instantiation of the abstract key-derivation
function, used to evaluate the hashing model on concrete inputs. -/
def idHasher : PasswordHasher := { pbkdf2 := fun p _ _ => p }

theorem idHasher_injective : idHasher.Injective := by
  intro _ _ _ _ hpq
  simpa [idHasher] using hpq

/-- C1: for every plaintext email `E` and every `PeriodAssignment` created via
`create_with_email` with `E`, `verify_email E` returns true; and for every
candidate `E1 ≠ E` (including the empty string) `verify_email E1` returns
false — stated for any collision-free key-derivation function. -/
theorem C1_email_hash_roundtrip (h : PasswordHasher) (hinj : h.Injective)
    (email : String) (pc : Nat) (salt token : String) :
    (PeriodAssignment.create_with_email h email pc salt token).verify_email
        h email = true ∧
      ∀ other, other ≠ email →
        (PeriodAssignment.create_with_email h email pc salt
            token).verify_email h other = false := by
  refine ⟨verify_email_create_self h email pc salt token, ?_⟩
  intro other hne
  exact verify_email_create_other h hinj email other pc salt token hne

theorem C1_email_hash_roundtrip_witness :
    (PeriodAssignment.create_with_email idHasher "alice@example.com" 1 "s"
        "tok").verify_email idHasher "alice@example.com" = true ∧
      (PeriodAssignment.create_with_email idHasher "alice@example.com" 1 "s"
          "tok").verify_email idHasher "" = false := by
  have h := C1_email_hash_roundtrip idHasher idHasher_injective
    "alice@example.com" 1 "s" "tok"
  exact ⟨h.1, h.2 "" (by decide)⟩

/-! ## Database row types (models.py) and the database state

Each Django model becomes a row structure; the database is a structure of
row lists.  Foreign keys are stored as the referenced row's integer primary
key, exactly as in the relational schema. -/

/-- Embeds `Config` (models.py lines 17-38). -/
structure Config where
  name : String
  value : String
deriving DecidableEq, Repr

/-- Embeds `Period` (models.py lines 41-52). -/
structure PeriodRow where
  id : Nat
  name : String
  description : Option String
deriving DecidableEq, Repr

/-- Embeds the persisted columns of `Collection` (models.py lines 55-70). -/
structure CollectionRow where
  id : Nat
  name : String
  enabled : Bool
deriving DecidableEq, Repr

/-- Embeds `PeriodCollection` (models.py lines 162-183). -/
structure PeriodCollectionRow where
  id : Nat
  period : Nat
  collection : Nat
deriving DecidableEq, Repr

/-- Embeds `CollectionConfig` (models.py lines 186-214). -/
structure CollectionConfig where
  collection : Nat
  name : String
  value : String
deriving DecidableEq, Repr

/-- Embeds `CollectionMaintainer` (models.py lines 350-369). -/
structure CollectionMaintainerRow where
  collection : Nat
  maintainer : Nat
deriving DecidableEq, Repr

/-- Embeds `MaintainerPeriod` (models.py lines 372-392). -/
structure MaintainerPeriodRow where
  maintainer : Nat
  period : Nat
deriving DecidableEq, Repr

/-- The relational database state: one list of rows per table. -/
structure DB where
  configs : List Config
  periods : List PeriodRow
  collections : List CollectionRow
  periodCollections : List PeriodCollectionRow
  collectionConfigs : List CollectionConfig
  assignments : List PeriodAssignment
  collectionMaintainers : List CollectionMaintainerRow
  maintainerPeriods : List MaintainerPeriodRow
deriving Repr

def emptyDB : DB :=
  { configs := []
    periods := []
    collections := []
    periodCollections := []
    collectionConfigs := []
    assignments := []
    collectionMaintainers := []
    maintainerPeriods := [] }

/-! ## forms.py: PeriodAssignmentForm validation -/

def ASSIGNMENT_LIMIT : String := "ASSIGNMENT_LIMIT"

/-- Digit-list-to-number conversion for the model of Python `int(str)`:
`none` unless the character list is nonempty and all decimal digits. -/
def digitsToNat (ds : List Char) : Option Nat :=
  if ds.isEmpty then none
  else if ds.all Char.isDigit then
    some (ds.foldl (fun acc c => acc * 10 + (c.toNat - 48)) 0)
  else none

/-- Model of Python's built-in `int(str)`, on the string's character list:
optional surrounding whitespace, an optional sign, then decimal digits; any
other shape raises `ValueError` (`none` here). -/
def pyInt (s : String) : Option Int :=
  let t := ((s.data.dropWhile Char.isWhitespace).reverse.dropWhile
    Char.isWhitespace).reverse
  match t with
  | '-' :: ds => (digitsToNat ds).map (fun n => -(n : Int))
  | '+' :: ds => (digitsToNat ds).map (fun n => (n : Int))
  | ds => (digitsToNat ds).map (fun n => (n : Int))

/-- Embeds `CollectionConfig.objects.get(collection=.., name=..)`; `none`
models `CollectionConfig.DoesNotExist`.  The (collection, name) unique
constraint makes at most one row match. -/
def CollectionConfig.objectsGet (db : DB) (collection : Nat) (nm : String) :
    Option CollectionConfig :=
  db.collectionConfigs.find? (fun cc =>
    cc.collection == collection && cc.name == nm)

/-- Embeds `Config.objects.get(name=..)`; `none` models
`Config.DoesNotExist`.  `name` is unique. -/
def Config.objectsGet (db : DB) (nm : String) : Option Config :=
  db.configs.find? (fun c => c.name == nm)

/-- Embeds `PeriodAssignment.objects.filter(period_collection=..).count()`
(forms.py line 130). -/
def current_assignments_count (db : DB) (pc : Nat) : Nat :=
  (db.assignments.filter (fun a => a.period_collection == pc)).length

/-- Embeds the limit-resolution block of
`PeriodAssignmentForm.clean_period_collection` (forms.py lines 132-145):
try the collection-scoped ASSIGNMENT_LIMIT first; on `DoesNotExist` or a
`ValueError` from `int(...)`, fall back to the system-wide Config default
with the same failure handling, leaving the limit unset if that also
fails. -/
def resolve_collection_limit (db : DB) (collection : Nat) : Option Int :=
  let fallback : Option Int :=
    match Config.objectsGet db ASSIGNMENT_LIMIT with
    | some default_config => pyInt default_config.value
    | none => none
  match CollectionConfig.objectsGet db collection ASSIGNMENT_LIMIT with
  | some collection_config =>
    match pyInt collection_config.value with
    | some n => some n
    | none => fallback
  | none => fallback

def full_message (limit : Int) : String :=
  "This period is full. Maximum " ++ toString limit ++ " assignments allowed."

/-- Embeds `PeriodAssignmentForm.clean_period_collection` (forms.py lines
115-152). -/
def clean_period_collection (db : DB)
    (period_collection : Option PeriodCollectionRow) :
    Except String PeriodCollectionRow :=
  match period_collection with
  | none => .error "Please select a period."
  | some pc =>
    let current_assignments : Nat := current_assignments_count db pc.id
    match resolve_collection_limit db pc.collection with
    | some collection_limit =>
      if (current_assignments : Int) ≥ collection_limit then
        .error (full_message collection_limit)
      else .ok pc
    | none => .ok pc

def already_registered_message : String :=
  "You are already registered for this period."

/-- Embeds `PeriodAssignmentForm.clean` (forms.py lines 154-178): when both
a period-collection and a (truthy, i.e. non-empty) email are present,
iterate every existing assignment for that period-collection and reject as
soon as one verifies against the submitted email. -/
def form_clean_duplicate (h : PasswordHasher) (db : DB)
    (period_collection : Option PeriodCollectionRow)
    (attendant_email : Option String) : Except String Unit :=
  match period_collection, attendant_email with
  | some pc, some email =>
    if email = "" then .ok ()
    else
      let existing_assignments :=
        db.assignments.filter (fun a => a.period_collection == pc.id)
      if existing_assignments.any (fun a => a.verify_email h email) then
        .error already_registered_message
      else .ok ()
  | _, _ => .ok ()

/-- Embeds the registration submission path (forms.py `is_valid` +
`PeriodAssignmentForm.save`, lines 115-199): the validated form persists a
new assignment built by `create_with_email`; a validation error leaves the
database untouched.  `salt`, `token` and `newId` are the nondeterministic
random values and the database-assigned primary key. -/
def submit_registration (h : PasswordHasher) (db : DB)
    (period_collection : Option PeriodCollectionRow)
    (attendant_email : String) (salt token : String) (newId : Nat) :
    DB × Option String :=
  match clean_period_collection db period_collection with
  | .error e => (db, some e)
  | .ok pc =>
    match form_clean_duplicate h db (some pc) (some attendant_email) with
    | .error e => (db, some e)
    | .ok _ =>
      let new_assignment :=
        { PeriodAssignment.create_with_email h attendant_email pc.id salt
            token with id := some newId }
      ({ db with assignments := db.assignments ++ [new_assignment] }, none)

/-- C3: the effective assignment cap is resolved from the collection-scoped
ASSIGNMENT_LIMIT override first (skipped on lookup failure or a non-numeric
value), then the system-wide Config default (same fallback); a resolved cap
N with the current count at or above N rejects with the period-is-full
error and creates no row; if neither source resolves, no limit is
enforced. -/
theorem C3_assignment_cap (db : DB) (pc : PeriodCollectionRow) :
    (∀ cfg n,
        CollectionConfig.objectsGet db pc.collection ASSIGNMENT_LIMIT =
          some cfg →
        pyInt cfg.value = some n →
        resolve_collection_limit db pc.collection = some n) ∧
    (∀ cfg,
        CollectionConfig.objectsGet db pc.collection ASSIGNMENT_LIMIT =
          some cfg →
        pyInt cfg.value = none →
        resolve_collection_limit db pc.collection =
          (Config.objectsGet db ASSIGNMENT_LIMIT).bind
            (fun c => pyInt c.value)) ∧
    (CollectionConfig.objectsGet db pc.collection ASSIGNMENT_LIMIT = none →
        resolve_collection_limit db pc.collection =
          (Config.objectsGet db ASSIGNMENT_LIMIT).bind
            (fun c => pyInt c.value)) ∧
    (∀ n, resolve_collection_limit db pc.collection = some n →
        (current_assignments_count db pc.id : Int) ≥ n →
        clean_period_collection db (some pc) = .error (full_message n)) ∧
    (∀ n, resolve_collection_limit db pc.collection = some n →
        (current_assignments_count db pc.id : Int) < n →
        clean_period_collection db (some pc) = .ok pc) ∧
    (resolve_collection_limit db pc.collection = none →
        clean_period_collection db (some pc) = .ok pc) ∧
    (∀ h email salt token newId n,
        resolve_collection_limit db pc.collection = some n →
        (current_assignments_count db pc.id : Int) ≥ n →
        (submit_registration h db (some pc) email salt token newId).1 =
          db) := by
  refine ⟨?_, ?_, ?_, ?_, ?_, ?_, ?_⟩
  · intro cfg n hget hparse
    simp [resolve_collection_limit, hget, hparse]
  · intro cfg hget hparse
    simp [resolve_collection_limit, hget, hparse]
    cases Config.objectsGet db ASSIGNMENT_LIMIT <;> simp
  · intro hget
    simp [resolve_collection_limit, hget]
    cases Config.objectsGet db ASSIGNMENT_LIMIT <;> simp
  · intro n hres hge
    simp [clean_period_collection, hres, hge]
  · intro n hres hlt
    simp [clean_period_collection, hres, not_le.mpr hlt]
  · intro hres
    simp [clean_period_collection, hres]
  · intro h email salt token newId n hres hge
    simp [submit_registration, clean_period_collection, hres, hge]

theorem C3_assignment_cap_witness :
    resolve_collection_limit
        { emptyDB with
          collectionConfigs := [⟨7, ASSIGNMENT_LIMIT, "2"⟩] } 7 = some 2 := by
  have h := (C3_assignment_cap
    { emptyDB with collectionConfigs := [⟨7, ASSIGNMENT_LIMIT, "2"⟩] }
    ⟨1, 1, 7⟩).1 ⟨7, ASSIGNMENT_LIMIT, "2"⟩ 2
  exact h (by decide) (by decide)

/-- C4: with both a period-collection and a non-empty email present, the
form scans every existing assignment under that period-collection for a
hash match, and rejects with the already-registered error exactly when some
existing assignment's `verify_email` matches the submitted email. -/
theorem C4_duplicate_registration (h : PasswordHasher) (db : DB)
    (pc : PeriodCollectionRow) (email : String) (hne : email ≠ "") :
    (form_clean_duplicate h db (some pc) (some email) =
        .error already_registered_message ↔
      ∃ a ∈ db.assignments, a.period_collection = pc.id ∧
        a.verify_email h email = true) ∧
    (form_clean_duplicate h db (some pc) (some email) = .ok () ↔
      ∀ a ∈ db.assignments, a.period_collection = pc.id →
        a.verify_email h email = false) := by
  have hmatch : (db.assignments.filter
      (fun a => a.period_collection == pc.id)).any
        (fun a => a.verify_email h email) = true ↔
      ∃ a ∈ db.assignments, a.period_collection = pc.id ∧
        a.verify_email h email = true := by
    simp [List.any_eq_true, List.mem_filter, and_assoc]
  constructor
  · rw [← hmatch]
    simp only [form_clean_duplicate, if_neg hne]
    constructor
    · intro hres
      by_contra hany
      simp only [Bool.not_eq_true] at hany
      simp [hany] at hres
    · intro hany
      simp [hany]
  · rw [show (∀ a ∈ db.assignments, a.period_collection = pc.id →
        a.verify_email h email = false) ↔
      ¬ ∃ a ∈ db.assignments, a.period_collection = pc.id ∧
        a.verify_email h email = true by
        constructor
        · rintro hall ⟨a, ha, hpc, hver⟩
          rw [hall a ha hpc] at hver
          exact Bool.false_ne_true hver
        · intro hnone a ha hpc
          by_contra hver
          simp only [Bool.not_eq_false] at hver
          exact hnone ⟨a, ha, hpc, hver⟩]
    rw [← hmatch]
    simp only [form_clean_duplicate, if_neg hne]
    constructor
    · intro hres hany
      simp [hany] at hres
    · intro hany
      simp only [Bool.not_eq_true] at hany
      simp [hany]

theorem C4_duplicate_registration_witness :
    form_clean_duplicate idHasher emptyDB (some ⟨1, 1, 7⟩)
      (some "alice@example.com") = .ok () :=
  (C4_duplicate_registration idHasher emptyDB ⟨1, 1, 7⟩ "alice@example.com"
    (by decide)).2.mpr (by intro a ha; simp [emptyDB] at ha)

/-! ## maintainer_views.py: queryset scoping

Each class-based view's `get_queryset` becomes a function from the database
and the acting maintainer's id to the list of reachable rows;
`SingleObjectMixin.get_object` filters that queryset by primary key, with
`none` standing for the Http404 raised on an empty result. -/

/-- Embeds `Collection.objects.filter(collectionmaintainer__maintainer=m)`,
the queryset shared verbatim by CollectionListView (line 139),
CollectionUpdateView (line 192), CollectionDetailView (line 226) and
CollectionDeleteView (line 289) in maintainer_views.py. -/
def collections_of_maintainer (db : DB) (maintainer : Nat) :
    List CollectionRow :=
  db.collections.filter (fun c =>
    db.collectionMaintainers.any (fun cm =>
      cm.collection == c.id && cm.maintainer == maintainer))

def CollectionListView_queryset : DB → Nat → List CollectionRow :=
  collections_of_maintainer

def CollectionUpdateView_queryset : DB → Nat → List CollectionRow :=
  collections_of_maintainer

def CollectionDetailView_queryset : DB → Nat → List CollectionRow :=
  collections_of_maintainer

def CollectionDeleteView_queryset : DB → Nat → List CollectionRow :=
  collections_of_maintainer

/-- Embeds `Period.objects.filter(maintainerperiod__maintainer=m)`, the
queryset of PeriodListView (line 362, with its display-only count
annotations dropped) and PeriodDeleteView (line 444). -/
def periods_of_maintainer (db : DB) (maintainer : Nat) : List PeriodRow :=
  db.periods.filter (fun p =>
    db.maintainerPeriods.any (fun mp =>
      mp.period == p.id && mp.maintainer == maintainer))

def PeriodListView_queryset : DB → Nat → List PeriodRow :=
  periods_of_maintainer

def PeriodDeleteView_queryset : DB → Nat → List PeriodRow :=
  periods_of_maintainer

/-- Embeds PeriodUpdateView (maintainer_views.py lines 402-425): the class
overrides neither `queryset` nor `get_queryset`, so Django's
SingleObjectMixin falls back to the model's default manager — every Period
row, with no maintainer filter. -/
def PeriodUpdateView_queryset (db : DB) (_maintainer : Nat) :
    List PeriodRow :=
  db.periods

/-- Embeds Django's `SingleObjectMixin.get_object`: filter the view's
queryset by primary key; an empty result raises Http404 (`none` here). -/
def get_object {α : Type} (qs : List α) (pk_of : α → Nat) (pk : Nat) :
    Option α :=
  qs.find? (fun x => pk_of x == pk)

/-- Embeds the pagination attribute of CollectionListView (maintainer_views.py
lines 124-139): the class declares no `paginate_by`, so Django's
MultipleObjectMixin default `paginate_by = None` applies — no pagination. -/
def CollectionListView_paginate_by : Option Nat := none

/-- Embeds `paginate_by = 20` of PeriodListView (maintainer_views.py line
349). -/
def PeriodListView_paginate_by : Option Nat := some 20

/-- Embeds `paginate_by = 50` of AssignmentListView (maintainer_views.py line
956). -/
def AssignmentListView_paginate_by : Option Nat := some 50

/-- Embeds the scoped `get_object_or_404` of `delete_assignment`
(maintainer_views.py lines 1014-1018): the assignment is found only when it
carries the requested id and its period-collection's collection is joined
to the acting maintainer via CollectionMaintainer; `none` is the 404. -/
def delete_assignment_lookup (db : DB) (maintainer : Nat)
    (assignment_id : Nat) : Option PeriodAssignment :=
  db.assignments.find? (fun a =>
    a.id == some assignment_id &&
    db.periodCollections.any (fun pcr =>
      pcr.id == a.period_collection &&
      db.collectionMaintainers.any (fun cm =>
        cm.collection == pcr.collection && cm.maintainer == maintainer)))

/-- The CollectionMaintainer-join ownership relation of the spec. -/
def maintains_collection (db : DB) (maintainer collection : Nat) : Prop :=
  ∃ cm ∈ db.collectionMaintainers,
    cm.collection = collection ∧ cm.maintainer = maintainer

/-- The MaintainerPeriod-join ownership relation of the spec. -/
def maintains_period (db : DB) (maintainer period : Nat) : Prop :=
  ∃ mp ∈ db.maintainerPeriods,
    mp.period = period ∧ mp.maintainer = maintainer

theorem mem_collections_of_maintainer {db : DB} {m : Nat}
    {c : CollectionRow} (hc : c ∈ collections_of_maintainer db m) :
    c ∈ db.collections ∧ maintains_collection db m c.id := by
  rw [collections_of_maintainer, List.mem_filter] at hc
  refine ⟨hc.1, ?_⟩
  rcases List.any_eq_true.mp hc.2 with ⟨cm, hcm, hpred⟩
  simp only [Bool.and_eq_true, beq_iff_eq] at hpred
  exact ⟨cm, hcm, hpred.1, hpred.2⟩

theorem mem_periods_of_maintainer {db : DB} {m : Nat}
    {p : PeriodRow} (hp : p ∈ periods_of_maintainer db m) :
    p ∈ db.periods ∧ maintains_period db m p.id := by
  rw [periods_of_maintainer, List.mem_filter] at hp
  refine ⟨hp.1, ?_⟩
  rcases List.any_eq_true.mp hp.2 with ⟨mp, hmp, hpred⟩
  simp only [Bool.and_eq_true, beq_iff_eq] at hpred
  exact ⟨mp, hmp, hpred.1, hpred.2⟩

/-- A concrete database: one period, nobody maintains anything. -/
def c2db : DB := { emptyDB with periods := [⟨1, "Secret period", none⟩] }

/-- C2 counterexample: the claim asserts every update queryset reachable in
the maintainer panel, including the period update view, is ownership
filtered so that out-of-scope entities yield not-found; but PeriodUpdateView
resolves a period that maintainer 0 is not joined to via MaintainerPeriod,
returning the object instead of a 404. -/
theorem C2_counterexample :
    get_object (PeriodUpdateView_queryset c2db 0) PeriodRow.id 1 =
        some ⟨1, "Secret period", none⟩ ∧
      ¬ maintains_period c2db 0 1 := by
  constructor
  · rfl
  · rintro ⟨mp, hmp, -⟩
    simp [c2db, emptyDB] at hmp

/-- C2 as amended: the collection list/detail/update/delete querysets, the
period list/delete querysets and the AJAX assignment-delete lookup are
ownership scoped (CollectionMaintainer for collections, MaintainerPeriod
for periods) and out-of-scope collection requests yield not-found; the
period update view alone uses the unrestricted all-periods queryset. -/
theorem C2_ownership_scoping (db : DB) (m : Nat) :
    (∀ c ∈ CollectionListView_queryset db m,
        maintains_collection db m c.id) ∧
    (∀ c ∈ CollectionUpdateView_queryset db m,
        maintains_collection db m c.id) ∧
    (∀ c ∈ CollectionDetailView_queryset db m,
        maintains_collection db m c.id) ∧
    (∀ c ∈ CollectionDeleteView_queryset db m,
        maintains_collection db m c.id) ∧
    (∀ p ∈ PeriodListView_queryset db m, maintains_period db m p.id) ∧
    (∀ p ∈ PeriodDeleteView_queryset db m, maintains_period db m p.id) ∧
    (∀ pk, ¬ maintains_collection db m pk →
        get_object (CollectionUpdateView_queryset db m) CollectionRow.id
          pk = none) ∧
    (∀ aid x, delete_assignment_lookup db m aid = some x →
        ∃ pcr ∈ db.periodCollections, pcr.id = x.period_collection ∧
          maintains_collection db m pcr.collection) ∧
    (PeriodUpdateView_queryset db m = db.periods) := by
  refine ⟨fun c hc => (mem_collections_of_maintainer hc).2,
    fun c hc => (mem_collections_of_maintainer hc).2,
    fun c hc => (mem_collections_of_maintainer hc).2,
    fun c hc => (mem_collections_of_maintainer hc).2,
    fun p hp => (mem_periods_of_maintainer hp).2,
    fun p hp => (mem_periods_of_maintainer hp).2,
    ?_, ?_, rfl⟩
  · intro pk hnot
    rw [get_object, List.find?_eq_none]
    intro c hc
    simp only [beq_iff_eq]
    intro hid
    exact hnot (hid ▸ (mem_collections_of_maintainer hc).2)
  · intro aid x hfound
    have hpred := List.find?_some hfound
    simp only [Bool.and_eq_true, beq_iff_eq] at hpred
    rcases List.any_eq_true.mp hpred.2 with ⟨pcr, hpcr, hp2⟩
    simp only [Bool.and_eq_true, beq_iff_eq] at hp2
    rcases List.any_eq_true.mp hp2.2 with ⟨cm, hcm, hc2⟩
    simp only [Bool.and_eq_true, beq_iff_eq] at hc2
    exact ⟨pcr, hpcr, hp2.1, cm, hcm, hc2.1, hc2.2⟩

theorem C2_ownership_scoping_witness :
    get_object (CollectionUpdateView_queryset c2db 0) CollectionRow.id 5 =
      none :=
  (C2_ownership_scoping c2db 0).2.2.2.2.2.2.1 5
    (by rintro ⟨cm, hcm, -⟩; simp [c2db, emptyDB] at hcm)

/-- C9 counterexample: the claim asserts the maintainer panel's collection
list view is paginated at 20 per page, but CollectionListView declares no
`paginate_by`, leaving Django's unpaginated default in force. -/
theorem C9_counterexample : CollectionListView_paginate_by ≠ some 20 := by
  decide

/-- C9 as amended: the collection list view's queryset is scoped to the
collections the acting maintainer manages via CollectionMaintainer, but the
view sets no `paginate_by` and is therefore unpaginated (the 20-per-page
setting belongs to the period list view). -/
theorem C9_collection_list (db : DB) (m : Nat) :
    (∀ c ∈ CollectionListView_queryset db m,
        maintains_collection db m c.id) ∧
      CollectionListView_paginate_by = none ∧
      PeriodListView_paginate_by = some 20 := by
  exact ⟨fun c hc => (mem_collections_of_maintainer hc).2, rfl, rfl⟩

theorem C9_collection_list_witness :
    maintains_collection
      { emptyDB with
        collections := [⟨1, "Parish", true⟩]
        collectionMaintainers := [⟨1, 4⟩] } 4 1 :=
  (C9_collection_list
    { emptyDB with
      collections := [⟨1, "Parish", true⟩]
      collectionMaintainers := [⟨1, 4⟩] } 4).1 ⟨1, "Parish", true⟩
    (by decide)

/-! ## Bulk standard-hour period generation (admin.py / maintainer_views.py) -/

/-- Model of Python's zero-padded two-digit format `f"{n:02d}"` for the
hour values (all below 100) used by both bulk generators. -/
def format02 (n : Nat) : String :=
  if n < 10 then String.mk ['0', Nat.digitChar n]
  else String.mk [Nat.digitChar (n / 10), Nat.digitChar (n % 10)]

/-- Embeds the period name `"{hour:02}:00 - {hour + 1:02}:00"` of
`PeriodAdmin.generate_standard_hour_periods` (admin.py line 128): the raw
`hour + 1` is rendered, with no midnight wrap-around. -/
def admin_hour_name (hour : Nat) : String :=
  format02 hour ++ ":00 - " ++ format02 (hour + 1) ++ ":00"

/-- Embeds the period name `"{hour:02d}:00 - {(hour + 1) % 24:02d}:00"` of
`assign_standard_periods_to_maintainer` (maintainer_views.py line 846),
which wraps hour 24 to 00. -/
def maintainer_hour_name (hour : Nat) : String :=
  format02 hour ++ ":00 - " ++ format02 ((hour + 1) % 24) ++ ":00"

/-- Embeds the description default of maintainer_views.py line 851. -/
def maintainer_hour_description (hour : Nat) : String :=
  "Adoration period from " ++ format02 hour ++ ":00 to " ++
    format02 ((hour + 1) % 24) ++ ":00"

/-- Fresh primary key for an inserted Period row. -/
def fresh_period_id (periods : List PeriodRow) : Nat :=
  periods.foldl (fun acc p => max acc p.id) 0 + 1

/-- Embeds `Period.objects.get_or_create(name=.., defaults=..)`: look the
row up by its unique name; when absent, insert a fresh row carrying the
defaulted description.  Returns the new table, the row, and the
created flag. -/
def period_get_or_create (periods : List PeriodRow) (nm : String)
    (description : Option String) : List PeriodRow × PeriodRow × Bool :=
  match periods.find? (fun p => p.name == nm) with
  | some p => (periods, p, false)
  | none =>
    let p : PeriodRow := ⟨fresh_period_id periods, nm, description⟩
    (periods ++ [p], p, true)

/-- One iteration of the admin bulk action's loop (admin.py lines
127-128): `Period.objects.get_or_create(name=f"{hour:02}:00 - ...")`,
name only, so a created row has no description. -/
def admin_generate_step (periods : List PeriodRow) (hour : Nat) :
    List PeriodRow :=
  (period_get_or_create periods (admin_hour_name hour) none).1

/-- Embeds `PeriodAdmin.generate_standard_hour_periods` (admin.py lines
119-128): the loop `for hour in range(0, 24)`. -/
def generate_standard_hour_periods (periods : List PeriodRow) :
    List PeriodRow :=
  (List.range 24).foldl admin_generate_step periods

/-- One iteration of the maintainer bulk endpoint's loop
(maintainer_views.py lines 845-861): get-or-create the wrapped-name period
with its description default, then get-or-create the MaintainerPeriod link,
counting created periods and links. -/
def maintainer_generate_step (maintainer : Nat) (acc : DB × Nat × Nat)
    (hour : Nat) : DB × Nat × Nat :=
  let (db, created_count, assigned_count) := acc
  let goc := period_get_or_create db.periods (maintainer_hour_name hour)
    (some (maintainer_hour_description hour))
  let db1 := { db with periods := goc.1 }
  let period := goc.2.1
  let link_exists := db1.maintainerPeriods.any (fun mp =>
    mp.maintainer == maintainer && mp.period == period.id)
  let db2 :=
    if link_exists then db1
    else { db1 with maintainerPeriods :=
      db1.maintainerPeriods ++ [⟨maintainer, period.id⟩] }
  (db2,
    created_count + (if goc.2.2 then 1 else 0),
    assigned_count + (if link_exists then 0 else 1))

/-- Embeds `assign_standard_periods_to_maintainer` (maintainer_views.py
lines 822-881): the loop over hours 0-23, returning the new database state
and the `created_count`/`assigned_count` pair reported in the JSON body. -/
def assign_standard_periods_to_maintainer (db : DB) (maintainer : Nat) :
    DB × Nat × Nat :=
  (List.range 24).foldl (maintainer_generate_step maintainer) (db, 0, 0)

theorem period_get_or_create_self (periods : List PeriodRow) (nm : String)
    (d : Option String) :
    ∃ p ∈ (period_get_or_create periods nm d).1, p.name = nm := by
  rw [period_get_or_create]
  cases hfind : periods.find? (fun p => p.name == nm) with
  | some p =>
    have hpred := List.find?_some hfind
    simp only [beq_iff_eq] at hpred
    exact ⟨p, List.mem_of_find?_eq_some hfind, hpred⟩
  | none =>
    exact ⟨⟨fresh_period_id periods, nm, d⟩, by simp, rfl⟩

theorem period_get_or_create_mono {periods : List PeriodRow} {q : PeriodRow}
    (hq : q ∈ periods) (nm : String) (d : Option String) :
    q ∈ (period_get_or_create periods nm d).1 := by
  rw [period_get_or_create]
  cases periods.find? (fun p => p.name == nm) with
  | some p => exact hq
  | none => exact List.mem_append_left _ hq

theorem admin_generate_foldl_mono {q : PeriodRow} :
    ∀ (L : List Nat) (ps : List PeriodRow), q ∈ ps →
      q ∈ L.foldl admin_generate_step ps := by
  intro L
  induction L with
  | nil => intro ps hq; exact hq
  | cons hd tl ih =>
    intro ps hq
    exact ih _ (period_get_or_create_mono hq _ _)

theorem admin_generate_foldl_names :
    ∀ (L : List Nat) (ps : List PeriodRow) (h : Nat), h ∈ L →
      ∃ p ∈ L.foldl admin_generate_step ps, p.name = admin_hour_name h := by
  intro L
  induction L with
  | nil => intro ps h hmem; cases hmem
  | cons hd tl ih =>
    intro ps h hmem
    rcases List.mem_cons.mp hmem with heq | htl
    · subst heq
      rcases period_get_or_create_self ps (admin_hour_name h) none with
        ⟨p, hp, hname⟩
      exact ⟨p, admin_generate_foldl_mono tl _ hp, hname⟩
    · exact ih _ h htl

theorem maintainer_step_periods_mono {m : Nat} {acc : DB × Nat × Nat}
    {q : PeriodRow} (hq : q ∈ acc.1.periods) (hour : Nat) :
    q ∈ (maintainer_generate_step m acc hour).1.periods := by
  obtain ⟨db, c, a⟩ := acc
  rw [maintainer_generate_step]
  simp only
  split <;> exact period_get_or_create_mono hq _ _

theorem maintainer_step_links_mono {m : Nat} {acc : DB × Nat × Nat}
    {mp : MaintainerPeriodRow} (hmp : mp ∈ acc.1.maintainerPeriods)
    (hour : Nat) :
    mp ∈ (maintainer_generate_step m acc hour).1.maintainerPeriods := by
  obtain ⟨db, c, a⟩ := acc
  rw [maintainer_generate_step]
  simp only
  split
  · exact hmp
  · exact List.mem_append_left _ hmp

theorem maintainer_foldl_periods_mono {m : Nat} {q : PeriodRow} :
    ∀ (L : List Nat) (acc : DB × Nat × Nat), q ∈ acc.1.periods →
      q ∈ (L.foldl (maintainer_generate_step m) acc).1.periods := by
  intro L
  induction L with
  | nil => intro acc hq; exact hq
  | cons hd tl ih =>
    intro acc hq
    exact ih _ (maintainer_step_periods_mono hq hd)

theorem maintainer_foldl_links_mono {m : Nat} {mp : MaintainerPeriodRow} :
    ∀ (L : List Nat) (acc : DB × Nat × Nat), mp ∈ acc.1.maintainerPeriods →
      mp ∈ (L.foldl (maintainer_generate_step m) acc).1.maintainerPeriods := by
  intro L
  induction L with
  | nil => intro acc hmp; exact hmp
  | cons hd tl ih =>
    intro acc hmp
    exact ih _ (maintainer_step_links_mono hmp hd)

theorem maintainer_step_establishes (m : Nat) (acc : DB × Nat × Nat)
    (hour : Nat) :
    ∃ pid,
      (∃ p ∈ (maintainer_generate_step m acc hour).1.periods,
        p.id = pid ∧ p.name = maintainer_hour_name hour) ∧
      ∃ mp ∈ (maintainer_generate_step m acc hour).1.maintainerPeriods,
        mp.maintainer = m ∧ mp.period = pid := by
  obtain ⟨db, c, a⟩ := acc
  rw [maintainer_generate_step]
  simp only
  set goc := period_get_or_create db.periods (maintainer_hour_name hour)
    (some (maintainer_hour_description hour)) with hgoc
  have hself : goc.2.1 ∈ goc.1 ∧ goc.2.1.name = maintainer_hour_name hour := by
    rw [hgoc, period_get_or_create]
    cases hfind : db.periods.find?
        (fun p => p.name == maintainer_hour_name hour) with
    | some p =>
      have hpred := List.find?_some hfind
      simp only [beq_iff_eq] at hpred
      exact ⟨List.mem_of_find?_eq_some hfind, hpred⟩
    | none => exact ⟨by simp, rfl⟩
  refine ⟨goc.2.1.id, ⟨goc.2.1, ?_, rfl, hself.2⟩, ?_⟩
  · split <;> exact hself.1
  · split
    · rename_i hlink
      rcases List.any_eq_true.mp hlink with ⟨mp, hmp, hpred⟩
      simp only [Bool.and_eq_true, beq_iff_eq] at hpred
      exact ⟨mp, hmp, hpred.1, hpred.2⟩
    · exact ⟨⟨m, goc.2.1.id⟩, by simp, rfl, rfl⟩

theorem maintainer_foldl_establishes (m : Nat) :
    ∀ (L : List Nat) (acc : DB × Nat × Nat) (h : Nat), h ∈ L →
      ∃ pid,
        (∃ p ∈ (L.foldl (maintainer_generate_step m) acc).1.periods,
          p.id = pid ∧ p.name = maintainer_hour_name h) ∧
        ∃ mp ∈ (L.foldl (maintainer_generate_step m)
            acc).1.maintainerPeriods,
          mp.maintainer = m ∧ mp.period = pid := by
  intro L
  induction L with
  | nil => intro acc h hmem; cases hmem
  | cons hd tl ih =>
    intro acc h hmem
    rcases List.mem_cons.mp hmem with heq | htl
    · subst heq
      rcases maintainer_step_establishes m acc h with
        ⟨pid, ⟨p, hp, hpid, hname⟩, ⟨mp, hmp, hm, hper⟩⟩
      exact ⟨pid, ⟨p, maintainer_foldl_periods_mono tl _ hp, hpid, hname⟩,
        ⟨mp, maintainer_foldl_links_mono tl _ hmp, hm, hper⟩⟩
    · exact ih _ h htl

/-- C5: the admin back-office bulk action get-or-creates, for every hour,
a period named with the raw `hour + 1` (hour 23 gives "23:00 - 24:00") and
no description, while the maintainer-panel bulk endpoint names the same
hour with `(hour + 1) % 24` (hour 23 gives "23:00 - 00:00"), sets the
"Adoration period from .. to .." description on creation and ensures a
MaintainerPeriod link for the acting maintainer; the two names agree for
hours 0-22 and deliberately differ for hour 23. -/
theorem C5_bulk_hour_generation :
    (∀ (periods : List PeriodRow) (hour : Nat), hour < 24 →
      ∃ p ∈ generate_standard_hour_periods periods,
        p.name = admin_hour_name hour) ∧
    (∀ (db : DB) (m hour : Nat), hour < 24 →
      ∃ pid,
        (∃ p ∈ (assign_standard_periods_to_maintainer db m).1.periods,
          p.id = pid ∧ p.name = maintainer_hour_name hour) ∧
        ∃ mp ∈ (assign_standard_periods_to_maintainer
            db m).1.maintainerPeriods,
          mp.maintainer = m ∧ mp.period = pid) ∧
    ((generate_standard_hour_periods []).map
        (fun p => (p.name, p.description)) =
      (List.range 24).map (fun h => (admin_hour_name h, none))) ∧
    ((assign_standard_periods_to_maintainer emptyDB 4).1.periods.map
        (fun p => (p.name, p.description)) =
      (List.range 24).map (fun h =>
        (maintainer_hour_name h, some (maintainer_hour_description h)))) ∧
    admin_hour_name 23 = "23:00 - 24:00" ∧
    maintainer_hour_name 23 = "23:00 - 00:00" ∧
    maintainer_hour_description 23 = "Adoration period from 23:00 to 00:00" ∧
    (∀ hour, hour < 23 → admin_hour_name hour = maintainer_hour_name hour) ∧
    admin_hour_name 23 ≠ maintainer_hour_name 23 := by
  refine ⟨?_, ?_, by decide, by decide, by decide, by decide, by decide,
    ?_, by decide⟩
  · intro periods hour hlt
    exact admin_generate_foldl_names (List.range 24) periods hour
      (List.mem_range.mpr hlt)
  · intro db m hour hlt
    exact maintainer_foldl_establishes m (List.range 24) (db, 0, 0) hour
      (List.mem_range.mpr hlt)
  · intro hour hlt
    rw [admin_hour_name, maintainer_hour_name,
      Nat.mod_eq_of_lt (by omega)]

theorem C5_bulk_hour_generation_witness :
    ∃ p ∈ generate_standard_hour_periods [], p.name = admin_hour_name 23 :=
  C5_bulk_hour_generation.1 [] 23 (by decide)

/-! ## maintainer_views.py: promote_user_to_maintainer -/

/-- Embeds the base `User` account rows of the external identity
subsystem referenced by the promotion flow. -/
structure UserRow where
  id : Nat
  username : String
  first_name : String
  last_name : String
  email : String
deriving DecidableEq, Repr

/-- Embeds `Maintainer` (models.py lines 314-344): one-to-one user link,
optional phone number, country. -/
structure MaintainerRow where
  user : Nat
  phone_number : String
  country : String
deriving DecidableEq, Repr

/-- Authorization state touched by the promotion flow: user accounts,
Maintainer profiles, authorization groups by name, and (user, group)
memberships. -/
structure AuthState where
  users : List UserRow
  maintainers : List MaintainerRow
  groups : List String
  memberships : List (Nat × String)
deriving DecidableEq, Repr

/-- Model of Python's `not s or not s.strip()`: true exactly for an empty
or whitespace-only string. -/
def is_blank (s : String) : Bool := s.data.all Char.isWhitespace

/-- Embeds `django.db.transaction.atomic` (external interface): run the
block on the entry state; an exception inside rolls the state back to the
entry state and surfaces the error. -/
def transaction_atomic (st : AuthState)
    (body : AuthState → Except String AuthState) :
    AuthState × Option String :=
  match body st with
  | .ok st2 => (st2, none)
  | .error e => (st, some e)

/-- The transaction body of `promote_user_to_maintainer`
(maintainer_views.py lines 927-934): create the Maintainer profile from
the submitted country and phone fields, then get-or-create the
"Maintainers" group and add the user to it.  `fault_profile` and
`fault_group` inject a database failure in the respective step, as in the
spec's simulated-fault test property. -/
def promotion_body (fault_profile fault_group : Bool) (user_id : Nat)
    (country phone_number : String) (st : AuthState) :
    Except String AuthState :=
  if fault_profile then .error "maintainer creation failed"
  else
    let st1 := { st with maintainers :=
      st.maintainers ++ [⟨user_id, phone_number, country⟩] }
    if fault_group then .error "group assignment failed"
    else
      let st2 :=
        if st1.groups.contains "Maintainers" then st1
        else { st1 with groups := st1.groups ++ ["Maintainers"] }
      let st3 :=
        if st2.memberships.contains (user_id, "Maintainers") then st2
        else { st2 with memberships :=
          st2.memberships ++ [(user_id, "Maintainers")] }
      .ok st3

/-- Embeds `User.get_full_name()` of the identity subsystem: first and
last name joined and stripped. -/
def get_full_name (u : UserRow) : String :=
  String.mk ((((u.first_name ++ " " ++ u.last_name).data.dropWhile
    Char.isWhitespace).reverse.dropWhile Char.isWhitespace).reverse)

/-- Embeds `user.get_full_name() or user.username`. -/
def display_name (u : UserRow) : String :=
  if get_full_name u = "" then u.username else get_full_name u

/-- Embeds `promote_user_to_maintainer` (maintainer_views.py lines
884-946): validate the target, then run the profile-creation and
group-membership steps inside one atomic transaction; any exception is
caught and reported as a JSON error.  Returns the resulting state and the
success message or error. -/
def promote_user_to_maintainer (fault_profile fault_group : Bool)
    (st : AuthState) (user_id : Option Nat)
    (country phone_number : String) : AuthState × Except String String :=
  match user_id with
  | none => (st, .error "Missing user ID")
  | some uid =>
    match st.users.find? (fun u => u.id == uid) with
    | none => (st, .error "No User matches the given query.")
    | some user =>
      if st.maintainers.any (fun mr => mr.user == uid) then
        (st, .error ("User '" ++ user.username ++
          "' is already a maintainer."))
      else if is_blank user.email then
        (st, .error "User must have an email address to become a maintainer.")
      else
        match transaction_atomic st
            (promotion_body fault_profile fault_group uid country
              phone_number) with
        | (st2, none) =>
          (st2, .ok ("User '" ++ display_name user ++
            "' promoted to maintainer successfully."))
        | (st2, some e) => (st2, .error e)

/-- C6: a successful promotion creates the Maintainer profile from the
submitted country and phone fields and adds the user to the "Maintainers"
group (created on first use), inside a single atomic transaction; if
either step fails the entire state is rolled back, so no partial
promotion state persists. -/
theorem C6_promotion_atomicity (fault_profile fault_group : Bool)
    (st : AuthState) (uid : Nat) (country phone_number : String)
    (user : UserRow)
    (hfind : st.users.find? (fun u => u.id == uid) = some user)
    (hnotm : st.maintainers.any (fun mr => mr.user == uid) = false)
    (hemail : is_blank user.email = false) :
    (fault_profile = false → fault_group = false →
      (MaintainerRow.mk uid phone_number country) ∈
          (promote_user_to_maintainer fault_profile fault_group st
            (some uid) country phone_number).1.maintainers ∧
        "Maintainers" ∈ (promote_user_to_maintainer fault_profile
          fault_group st (some uid) country phone_number).1.groups ∧
        (uid, "Maintainers") ∈ (promote_user_to_maintainer fault_profile
          fault_group st (some uid) country phone_number).1.memberships) ∧
    (fault_profile = true ∨ fault_group = true →
      (promote_user_to_maintainer fault_profile fault_group st (some uid)
          country phone_number).1 = st ∧
        ∃ e, (promote_user_to_maintainer fault_profile fault_group st
          (some uid) country phone_number).2 = .error e) := by
  have hsucc : ∃ st3,
      promotion_body false false uid country phone_number st = .ok st3 ∧
      (MaintainerRow.mk uid phone_number country) ∈ st3.maintainers ∧
      "Maintainers" ∈ st3.groups ∧
      (uid, "Maintainers") ∈ st3.memberships := by
    rw [promotion_body]
    simp only [Bool.false_eq_true, if_false]
    refine ⟨_, rfl, ?_, ?_, ?_⟩
    · split <;> split <;> simp
    · split
      · rename_i hgrp
        split <;> simpa using hgrp
      · split <;> simp
    · split <;> split
      · rename_i hmem
        simpa using hmem
      · simp
      · rename_i hmem
        simpa using hmem
      · simp
  constructor
  · rintro rfl rfl
    rcases hsucc with ⟨st3, hbody, hm, hg, hms⟩
    rw [promote_user_to_maintainer]
    simp only [hfind, hnotm, Bool.false_eq_true, if_false, hemail,
      transaction_atomic, hbody]
    exact ⟨hm, hg, hms⟩
  · intro hfault
    have hbody : ∃ e, promotion_body fault_profile fault_group uid country
        phone_number st = .error e := by
      cases hfp : fault_profile
      · cases hfg : fault_group
        · rcases hfault with hf | hf
          · rw [hfp] at hf; cases hf
          · rw [hfg] at hf; cases hf
        · exact ⟨"group assignment failed", by
            simp [promotion_body, hfp, hfg]⟩
      · exact ⟨"maintainer creation failed", by simp [promotion_body, hfp]⟩
    rcases hbody with ⟨e, hbody⟩
    rw [promote_user_to_maintainer]
    simp only [hfind, hnotm, Bool.false_eq_true, if_false, hemail,
      transaction_atomic, hbody]
    simp

/-- A concrete one-user state for evaluating the promotion flow. -/
def promoDemoState : AuthState :=
  { users := [⟨9, "anna", "Anna", "Kowalska", "anna@example.com"⟩]
    maintainers := []
    groups := []
    memberships := [] }

theorem C6_promotion_atomicity_witness :
    (MaintainerRow.mk 9 "+111" "Poland") ∈
      (promote_user_to_maintainer false false promoDemoState (some 9)
        "Poland" "+111").1.maintainers :=
  ((C6_promotion_atomicity false false promoDemoState 9 "Poland" "+111"
    ⟨9, "anna", "Anna", "Kowalska", "anna@example.com"⟩
    (by decide) (by decide) (by decide)) |>.1 rfl rfl).1

/-! ## models.py: Collection validation -/

/-- Modelled from the spec: the project settings module is not included
under src, and spec §4.3 fixes the configured interface languages
(`settings.LANGUAGES`) to English, Polish and Dutch. -/
def settings_LANGUAGES : List String := ["en", "pl", "nl"]

/-- Embeds the in-memory `Collection` instance as seen by `full_clean`:
`pk` is `none` for a new, unsaved instance; `maintainers_checked` models
whether the `_maintainers_checked` escape-hatch attribute is present
(tested with `hasattr` at models.py line 86). -/
structure CollectionObj where
  pk : Option Nat
  name : String
  description : Option String
  enabled : Bool
  available_languages : List String
  maintainers_checked : Bool
deriving DecidableEq, Repr

/-- Embeds `Collection._validate_available_languages` (models.py lines
106-125): a non-empty list whose codes all belong to the configured
language set (the source's message also lists the sorted offending and
valid codes; the model keeps the fixed message head). -/
def validate_available_languages (langs : List String) :
    Except String Unit :=
  if langs.isEmpty then
    .error "Collection must have at least one available language."
  else
    let invalid_codes := langs.filter (fun c =>
      !settings_LANGUAGES.contains c)
    if invalid_codes.isEmpty then .ok ()
    else .error ("Invalid language codes: " ++
      String.intercalate ", " invalid_codes)

def maintainer_required_message : String :=
  "Collection must have at least one maintainer to be enabled."

/-- Embeds `Collection.clean` (models.py lines 72-90): language validation
first; then, only for an enabled instance that has a primary key and does
not carry `_maintainers_checked`, require an existing CollectionMaintainer
row. -/
def Collection.clean (db : DB) (c : CollectionObj) : Except String Unit :=
  match validate_available_languages c.available_languages with
  | .error e => .error e
  | .ok _ =>
    if c.enabled && c.pk.isSome then
      if !c.maintainers_checked then
        if db.collectionMaintainers.any (fun cm =>
            some cm.collection == c.pk) then .ok ()
        else .error maintainer_required_message
      else .ok ()
    else .ok ()

/-- Embeds `Collection.save` (models.py lines 92-104): default the
language list when empty, run `full_clean` (whose model-level validation
is `Collection.clean`), then update the existing row or insert a new one
under a fresh primary key. -/
def Collection.save (db : DB) (c : CollectionObj) (fresh_id : Nat) :
    Except String (DB × CollectionObj) :=
  let c :=
    if c.available_languages.isEmpty then
      { c with available_languages := settings_LANGUAGES }
    else c
  match Collection.clean db c with
  | .error e => .error e
  | .ok _ =>
    match c.pk with
    | some k =>
      .ok ({ db with collections := db.collections.map (fun r =>
        if r.id == k then { r with name := c.name, enabled := c.enabled }
        else r) }, c)
    | none =>
      .ok ({ db with collections :=
        db.collections ++ [⟨fresh_id, c.name, c.enabled⟩] },
        { c with pk := some fresh_id })

/-- C8: full validation of a persisted (`pk`-bearing) Collection with
`enabled = true`, no `_maintainers_checked` attribute and zero associated
CollectionMaintainer rows fails with the maintainer-required error; with
`enabled = false`, or for a new unsaved instance, that check passes
(language validation assumed to succeed). -/
theorem C8_enable_requires_maintainer (db : DB) (c : CollectionObj)
    (hlang : validate_available_languages c.available_languages = .ok ())
    (hnochk : c.maintainers_checked = false) :
    (∀ k, c.pk = some k → c.enabled = true →
      (∀ cm ∈ db.collectionMaintainers, cm.collection ≠ k) →
      Collection.clean db c = .error maintainer_required_message) ∧
    (c.enabled = false → Collection.clean db c = .ok ()) ∧
    (c.pk = none → Collection.clean db c = .ok ()) := by
  refine ⟨?_, ?_, ?_⟩
  · intro k hpk hen hzero
    have hany : db.collectionMaintainers.any (fun cm =>
        some cm.collection == c.pk) = false := by
      rw [List.any_eq_false]
      intro cm hcm
      simp only [hpk, beq_iff_eq, Option.some.injEq]
      exact hzero cm hcm
    rw [Collection.clean, hlang]
    simp only [hpk, hen, hnochk, hany]
    simp [hany]
    exact hzero
  · intro hen
    rw [Collection.clean, hlang]
    simp [hen]
  · intro hpk
    rw [Collection.clean, hlang]
    simp [hpk]

/-- A persisted, enabled collection in a database with no
CollectionMaintainer rows. -/
def orphanCollection : CollectionObj :=
  { pk := some 3
    name := "Chapel"
    description := none
    enabled := true
    available_languages := ["en"]
    maintainers_checked := false }

theorem C8_enable_requires_maintainer_witness :
    Collection.clean emptyDB orphanCollection =
      .error maintainer_required_message :=
  (C8_enable_requires_maintainer emptyDB orphanCollection (by rfl)
    rfl).1 3 rfl rfl (by intro cm hcm; simp [emptyDB] at hcm)

/-- C10: the `_maintainers_checked` attribute disables the
enabled-requires-maintainer check entirely, so a caller that sets it can
fully validate and save an enabled, persisted collection with zero
associated maintainers. -/
theorem C10_maintainers_checked_bypass (db : DB) (c : CollectionObj)
    (hlang : validate_available_languages c.available_languages = .ok ())
    (hchk : c.maintainers_checked = true) :
    Collection.clean db c = .ok () ∧
      ∀ k, c.pk = some k → ∃ db2,
        Collection.save db c 0 = .ok (db2, c) := by
  have hne : c.available_languages.isEmpty = false := by
    by_contra hcontr
    simp only [Bool.not_eq_false] at hcontr
    rw [validate_available_languages, if_pos hcontr] at hlang
    cases hlang
  have hclean : Collection.clean db c = .ok () := by
    rw [Collection.clean, hlang]
    simp [hchk]
  refine ⟨hclean, ?_⟩
  intro k hpk
  refine ⟨{ db with collections := db.collections.map (fun r =>
    if r.id == k then { r with name := c.name, enabled := c.enabled }
    else r) }, ?_⟩
  rw [Collection.save]
  simp only [hne, Bool.false_eq_true, if_false, hclean, hpk]

/-- The orphan collection with the `_maintainers_checked` attribute set. -/
def bypassedCollection : CollectionObj :=
  { orphanCollection with maintainers_checked := true }

theorem C10_maintainers_checked_bypass_witness :
    Collection.clean emptyDB bypassedCollection = .ok () :=
  (C10_maintainers_checked_bypass emptyDB bypassedCollection (by rfl)
    rfl).1

/-! ## templatetags/language_tags.py: language_switcher

URL paths are modelled as their character lists (`Url`), mirroring Python
string indexing: `py_startswith` is `str.startswith` and `List.drop 3` is
the `[3:]` slice. -/

abbrev Url := List Char

def url (s : String) : Url := s.data

/-- Embeds Python `str.startswith`. -/
def py_startswith (s p : Url) : Bool := p.isPrefixOf s

/-- Embeds the English prefix-stripping block of `language_switcher`
(language_tags.py lines 89-93): drop a redundant "/en", "/pl" or "/nl"
marker (three characters, keeping the slash that follows it). -/
def strip_language_marker (next_url : Url) : Url :=
  if py_startswith next_url (url "/en/") then next_url.drop 3
  else if py_startswith next_url (url "/pl/") ||
      py_startswith next_url (url "/nl/") then next_url.drop 3
  else next_url

/-- Embeds lines 95-97: ensure the URL starts with "/". -/
def ensure_leading_slash (next_url : Url) : Url :=
  if py_startswith next_url (url "/") then next_url else '/' :: next_url

/-- Embeds the per-language URL computation of `language_switcher`
(language_tags.py lines 72-120).  `reverse_result lang` models
`reverse(url_name, kwargs=...)` evaluated under
`translation.override(lang)`; `none` models a raised exception — or the
request having no `resolver_match` at all (line 115) — either of which
falls back to the language's root path. -/
def compute_next_url (reverse_result : String → Option Url)
    (lang : String) : Url :=
  match reverse_result lang with
  | some next_url =>
    if lang = "en" then
      ensure_leading_slash (strip_language_marker next_url)
    else next_url
  | none => if lang = "en" then url "/" else ('/' :: lang.data) ++ url "/"

/-- Embeds the switcher's loop over `settings.LANGUAGES` (language_tags.py
lines 67-122), pairing each language code with its computed URL. -/
def language_switcher_urls (reverse_result : String → Option Url) :
    List (String × Url) :=
  settings_LANGUAGES.map (fun lang =>
    (lang, compute_next_url reverse_result lang))

/-- Modelled from the spec (§4.3, §4.10): the framework URL router
(`django.urls.reverse` under language-prefixed routing, an external
interface) resolves the named route under active language `lang` to the
un-prefixed base path for English — the default language, whose prefix is
omitted — and to the "/pl"- or "/nl"-prefixed path otherwise.  `en_quirk`
models the documented resolution quirk in which the default language can
still yield an "/en"-prefixed path. -/
def router_reverse (base : Url) (en_quirk : Bool) (lang : String) :
    Option Url :=
  if lang = "en" then
    some (if en_quirk then url "/en" ++ base else base)
  else some (('/' :: lang.data) ++ base)

theorem strip_language_marker_quirk (t : List Char) :
    strip_language_marker ('/' :: 'e' :: 'n' :: '/' :: t) = '/' :: t := by
  simp [strip_language_marker, py_startswith, url, List.isPrefixOf]

theorem strip_language_marker_clean (t : List Char)
    (hen : py_startswith ('/' :: t) (url "/en/") = false)
    (hpl : py_startswith ('/' :: t) (url "/pl/") = false)
    (hnl : py_startswith ('/' :: t) (url "/nl/") = false) :
    strip_language_marker ('/' :: t) = '/' :: t := by
  rw [strip_language_marker]
  simp [hen, hpl, hnl]

theorem ensure_leading_slash_slash (t : List Char) :
    ensure_leading_slash ('/' :: t) = '/' :: t := by
  simp [ensure_leading_slash, py_startswith, url, List.isPrefixOf]

theorem compute_next_url_en (t : List Char) (q : Bool)
    (hen : py_startswith ('/' :: t) (url "/en/") = false)
    (hpl : py_startswith ('/' :: t) (url "/pl/") = false)
    (hnl : py_startswith ('/' :: t) (url "/nl/") = false) :
    compute_next_url (router_reverse ('/' :: t) q) "en" = '/' :: t := by
  cases q with
  | true =>
    show ensure_leading_slash
      (strip_language_marker ('/' :: 'e' :: 'n' :: '/' :: t)) = '/' :: t
    rw [strip_language_marker_quirk, ensure_leading_slash_slash]
  | false =>
    show ensure_leading_slash (strip_language_marker ('/' :: t)) = '/' :: t
    rw [strip_language_marker_clean t hen hpl hnl,
      ensure_leading_slash_slash]

theorem compute_next_url_pl (base : Url) (q : Bool) :
    compute_next_url (router_reverse base q) "pl" =
      '/' :: 'p' :: 'l' :: base := rfl

theorem compute_next_url_nl (base : Url) (q : Bool) :
    compute_next_url (router_reverse base q) "nl" =
      '/' :: 'n' :: 'l' :: base := rfl

theorem py_startswith_extension {p big s : Url} (hpb : p <+: big)
    (h : py_startswith s p = false) : py_startswith s big = false := by
  rw [py_startswith, Bool.eq_false_iff] at h ⊢
  intro hbig
  apply h
  rw [List.isPrefixOf_iff_prefix] at hbig ⊢
  exact hpb.trans hbig

/-- C7: for a resolved route with (router-contract) base path `'/' :: t`
carrying no language prefix of its own, the switcher computes one URL per
supported language; the English URL equals the un-prefixed base path and
never starts with "/pl/" or "/nl/"; the three URLs are pairwise distinct;
no computed URL starts with a doubled language prefix; and on any
route-resolution failure each language falls back to its root path. -/
theorem C7_language_switcher (t : List Char) (en_quirk : Bool)
    (hen : py_startswith ('/' :: t) (url "/en/") = false)
    (hpl : py_startswith ('/' :: t) (url "/pl/") = false)
    (hnl : py_startswith ('/' :: t) (url "/nl/") = false) :
    (language_switcher_urls (router_reverse ('/' :: t) en_quirk) =
      [("en", '/' :: t), ("pl", '/' :: 'p' :: 'l' :: '/' :: t),
        ("nl", '/':: 'n' :: 'l' :: '/' :: t)]) ∧
    (compute_next_url (router_reverse ('/' :: t) en_quirk) "en" =
        '/' :: t ∧
      py_startswith (compute_next_url (router_reverse ('/' :: t) en_quirk)
        "en") (url "/pl/") = false ∧
      py_startswith (compute_next_url (router_reverse ('/' :: t) en_quirk)
        "en") (url "/nl/") = false) ∧
    (compute_next_url (router_reverse ('/' :: t) en_quirk) "en" ≠
        compute_next_url (router_reverse ('/' :: t) en_quirk) "pl" ∧
      compute_next_url (router_reverse ('/' :: t) en_quirk) "en" ≠
        compute_next_url (router_reverse ('/' :: t) en_quirk) "nl" ∧
      compute_next_url (router_reverse ('/' :: t) en_quirk) "pl" ≠
        compute_next_url (router_reverse ('/' :: t) en_quirk) "nl") ∧
    (∀ lang ∈ settings_LANGUAGES,
      py_startswith (compute_next_url (router_reverse ('/' :: t) en_quirk)
        lang) (url "/en/en/") = false ∧
      py_startswith (compute_next_url (router_reverse ('/' :: t) en_quirk)
        lang) (url "/pl/pl/") = false ∧
      py_startswith (compute_next_url (router_reverse ('/' :: t) en_quirk)
        lang) (url "/nl/nl/") = false) ∧
    (compute_next_url (fun _ => none) "en" = url "/" ∧
      compute_next_url (fun _ => none) "pl" = url "/pl/" ∧
      compute_next_url (fun _ => none) "nl" = url "/nl/") := by
  have hE := compute_next_url_en t en_quirk hen hpl hnl
  have hP := compute_next_url_pl ('/' :: t) en_quirk
  have hN := compute_next_url_nl ('/' :: t) en_quirk
  refine ⟨?_, ⟨hE, ?_, ?_⟩, ⟨?_, ?_, ?_⟩, ?_, by decide, by decide,
    by decide⟩
  · rw [language_switcher_urls]
    simp only [settings_LANGUAGES, List.map_cons, List.map_nil, hE, hP, hN]
  · rw [hE]; exact hpl
  · rw [hE]; exact hnl
  · rw [hE, hP]
    intro hcontr
    have hlen := congrArg List.length hcontr
    simp at hlen
  · rw [hE, hN]
    intro hcontr
    have hlen := congrArg List.length hcontr
    simp at hlen
  · rw [hP, hN]
    intro hcontr
    simp at hcontr
  · intro lang hlang
    rw [settings_LANGUAGES] at hlang
    simp only [List.mem_cons, List.not_mem_nil, or_false] at hlang
    rcases hlang with rfl | rfl | rfl
    · rw [hE]
      refine ⟨?_, ?_, ?_⟩
      · exact py_startswith_extension ⟨['e', 'n', '/'], rfl⟩ hen
      · exact py_startswith_extension ⟨['p', 'l', '/'], rfl⟩ hpl
      · exact py_startswith_extension ⟨['n', 'l', '/'], rfl⟩ hnl
    · rw [hP]
      refine ⟨?_, ?_, ?_⟩
      · simp [py_startswith, url, List.isPrefixOf]
      · simp only [py_startswith, url] at hpl ⊢
        simp [List.isPrefixOf] at hpl ⊢
        exact hpl
      · simp [py_startswith, url, List.isPrefixOf]
    · rw [hN]
      refine ⟨?_, ?_, ?_⟩
      · simp [py_startswith, url, List.isPrefixOf]
      · simp [py_startswith, url, List.isPrefixOf]
      · simp only [py_startswith, url] at hnl ⊢
        simp [List.isPrefixOf] at hnl ⊢
        exact hnl

theorem C7_language_switcher_witness :
    language_switcher_urls
        (router_reverse (url "/register/") false) =
      [("en", url "/register/"), ("pl", url "/pl/register/"),
        ("nl", url "/nl/register/")] :=
  (C7_language_switcher ("register/".data) false (by decide) (by decide)
    (by decide)).1

end Adoration
